import Mathlib

/-!
Shallow embedding of `src/main.py` of the `pdf-reader` service.

The file models the page-range parser `parse_pages_param`, the streaming
per-page table merge of `/convert-to-excel`, and the request bodies of
`/extract` and `/convert-to-excel` (text assembly, response fields and the
temporary-file lifecycle).  External libraries (pdfplumber, camelot,
pandas/openpyxl) are collaborators: a document is modelled by the data they
would return (per-page optional text, per-page lists of cell grids), and a
failure of `pdfplumber.open` by the absence of that data.

Strings are modelled over their character lists; the Python string methods
used by the code — `strip`, `lower`, `isdigit`, `int(...)`, `split(sep)`,
`in` — are embedded for the ASCII inputs the service manipulates
(`str.split` with a one-character separator, `int` with an optional sign and
underscore digit grouping, `isdigit` on ASCII digits).
-/

namespace PdfReader

/-- Python `str.strip()`: drop leading and trailing whitespace. -/
def pyStrip (s : String) : String :=
  ⟨((s.data.dropWhile Char.isWhitespace).reverse.dropWhile Char.isWhitespace).reverse⟩

/-- Python `str.lower()` restricted to ASCII: lower-case every character. -/
def pyLower (s : String) : String :=
  ⟨s.data.map Char.toLower⟩

/-- Python `str.isdigit()` restricted to ASCII: nonempty and all digits. -/
def pyIsDigit (s : String) : Bool :=
  !s.data.isEmpty && s.data.all Char.isDigit

/-- Numeric value of a digit list (underscores skipped), base 10. -/
def digitsVal (l : List Char) : Nat :=
  (l.filter (fun c => c ≠ '_')).foldl (fun a c => a * 10 + (c.toNat - 48)) 0

/-- Validity of the digit part of a Python integer literal:
digits with single underscores strictly between digits (`1_000`), nonempty. -/
def digitsOk : List Char → Bool
  | [] => false
  | [c] => c.isDigit
  | c :: d :: rest =>
    c.isDigit && (if d = '_' then digitsOk rest else digitsOk (d :: rest))

/-- Python `int(s)` for the nonnegative case: optional whitespace around an
optional `+` sign and a digit group.  In `parse_pages_param` it is only
applied to the pieces of a split on `-`, which therefore contain no `-`
sign, so the nonnegative case is exhaustive there. -/
def pyInt? (s : String) : Option Nat :=
  let t := (pyStrip s).data
  let l := if t.head? = some '+' then t.tail else t
  if digitsOk l then some (digitsVal l) else none

/-- Python `str.split(sep)` for a one-character separator, on character
lists: no collapsing, empty pieces kept, `[] ↦ [[]]`. -/
def splitOnChar (sep : Char) : List Char → List (List Char)
  | [] => [[]]
  | c :: rest =>
    let r := splitOnChar sep rest
    if c = sep then [] :: r
    else
      match r with
      | h :: t => (c :: h) :: t
      | [] => [[c]]

/-- Python `s.split(sep)` for a one-character separator, on strings. -/
def pySplit (sep : Char) (s : String) : List String :=
  (splitOnChar sep s.data).map String.mk

/-- Python `sep in s` for a one-character `sep`. -/
def pyContainsChar (c : Char) (s : String) : Bool :=
  s.data.contains c

/-- Python `range(a, b + 1)` as a list: `[a, a+1, ..., b]`, empty when `a > b`. -/
def rangeList (a b : Nat) : List Nat :=
  List.range' a (b + 1 - a)

/-- The token filter of the comma-list branch of `parse_pages_param`:
`p.strip().isdigit() and 1 <= int(p.strip()) <= total_pages`. -/
def keepToken (total_pages : Nat) (p : String) : Option Nat :=
  let t := pyStrip p
  if pyIsDigit t ∧ 1 ≤ digitsVal t.data ∧ digitsVal t.data ≤ total_pages then
    some (digitsVal t.data)
  else none

/-- The local `pages_clean = pages_str.strip().lower()` of `parse_pages_param`. -/
def pagesClean (s : String) : String :=
  pyLower (pyStrip s)

/-- `parse_pages_param(pages_str, total_pages)` of `src/main.py`, lines 11-29.
`none` as input models Python `None`; `none` as output models an uncaught
exception (`ValueError` from `int`, or a split on `-` that does not yield
exactly two pieces). -/
def parse_pages_param (pages_str : Option String) (total_pages : Nat) :
    Option (List Nat) :=
  match pages_str with
  | none => some (rangeList 1 (min 6 total_pages))
  | some s =>
    if s = "" then some (rangeList 1 (min 6 total_pages))
    else
      if pagesClean s = "all" then
        some (rangeList 1 total_pages)
      else if pyContainsChar '-' (pagesClean s) then
        match (pySplit '-' (pagesClean s)).map pyInt? with
        | [some a, some b] => some (rangeList a (min b total_pages))
        | _ => none
      else if pyIsDigit (pagesClean s) then
        some (rangeList 1 (min (digitsVal (pagesClean s).data) total_pages))
      else
        some ((pySplit ',' (pagesClean s)).filterMap (keepToken total_pages))

/-- A raw table extraction: a grid of string cells, row-major
(camelot's `table.df` seen as its list of rows). -/
abbrev Grid := List (List String)

/-- Python `key in str(cell)`: `key` occurs as a contiguous substring of
`cell`, i.e. it is a prefix of some suffix. -/
def cellHasKey (key cell : String) : Bool :=
  cell.data.tails.any (fun t => key.data.isPrefixOf t)

/-- The fixed `header_keywords` list of `convert_to_excel`
(`src/main.py`, lines 117 and 136). -/
def header_keywords : List String :=
  ["КНП", "Дебет", "Кредит", "Назначение", "БИК", "Номер документа"]

/-- `any(any(key in str(cell) for key in header_keywords) for cell in first_row)`
(`src/main.py`, line 118). -/
def rowHasHeaderKeyword (row : List String) : Bool :=
  row.any (fun cell => header_keywords.any (fun key => cellHasKey key cell))

/-- One iteration of the grid-accumulation loop of `convert_to_excel`
(`src/main.py`, lines 110-121).  `none` models the `IndexError` that
`df.iloc[0]` raises on a grid with no rows (only reachable once `all_dfs`
is nonempty; the first grid is appended without looking at its rows). -/
def mergeStep (all_dfs : List Grid) (df : Grid) : Option (List Grid) :=
  if all_dfs.isEmpty then some (all_dfs ++ [df])
  else
    match df with
    | [] => none
    | first_row :: _ =>
      if rowHasHeaderKeyword first_row then some (all_dfs ++ [df.drop 1])
      else some (all_dfs ++ [df])

/-- The whole streaming merge: fold `mergeStep` over the extracted grids in
page order (all grids of a page, in order, then the next page's). -/
def mergeGrids (grids : List Grid) : Option (List Grid) :=
  grids.foldlM mergeStep []

/-- Rows of the combined table, `pd.concat(all_dfs, ignore_index=True)`
(`src/main.py`, line 129): the grids kept by the merge, concatenated. -/
def combinedRows (grids : List Grid) : Option (List (List String)) :=
  (mergeGrids grids).map List.flatten

/-- The page-delimited section appended for page `i`
(`src/main.py`, line 64): `f"\n=== Страница {i} ===\n{text}"`. -/
def pageSection (i : Nat) (text : String) : String :=
  "\n=== Страница " ++ toString i ++ " ===\n" ++ text

/-- Successor-based enumeration: `enumerate(pages, start=k)`. -/
def enumF (k : Nat) : List α → List (Nat × α)
  | [] => []
  | a :: rest => (k, a) :: enumF (k + 1) rest

/-- The section list built by the `/extract` loop (`src/main.py`, lines
58-64).  A document is the list of its pages' `extract_text()` results
(`none` models Python `None`, replaced by `""` via `or ""`).  The result is
`none` when `parse_pages_param` raises. -/
def extractSections (doc : List (Option String)) (pages : Option String) :
    Option (List String) :=
  (parse_pages_param pages doc.length).map (fun page_numbers =>
    (enumF 1 doc).filterMap (fun it =>
      if page_numbers.contains it.1 then some (pageSection it.1 (it.2.getD ""))
      else none))

/-- Python `"\n".join(l)`. -/
def joinNl : List String → String
  | [] => ""
  | [s] => s
  | s :: rest => s ++ "\n" ++ joinNl rest

/-- The fields of the `/extract` JSON response that the claims mention. -/
structure ExtractResp where
  status : String
  total_pages : Nat
  pages_processed : Nat
  text_length : Nat
  text : String
  deriving Repr, DecidableEq

/-- The `/extract` request body (`src/main.py`, lines 49-82).  The input is
what `pdfplumber.open` would yield: `none` when opening the persisted bytes
raises (a corrupt upload), otherwise the per-page `extract_text()` results.
The returned `Bool` is true iff the temporary PDF file still exists when
the handler returns: the code calls `os.unlink(tmp_path)` only on the
success path (line 66); the `except` arm (lines 78-82) returns without
deleting it. -/
def extract_run (doc : Option (List (Option String))) (pages : Option String) :
    ExtractResp × Bool :=
  match doc with
  | none => (⟨"error", 0, 0, 0, ""⟩, true)
  | some d =>
    match extractSections d pages with
    | none => (⟨"error", 0, 0, 0, ""⟩, true)
    | some result_text =>
      (⟨"ok", d.length, result_text.length,
        (result_text.map String.length).sum, joinNl result_text⟩, false)

/-- The fields of the `/convert-to-excel` JSON response that the claims
mention, with the HTTP status code. -/
structure ConvResp where
  status : String
  message : String
  code : Nat
  tables_extracted : Nat
  deriving Repr, DecidableEq

/-- The `/convert-to-excel` request body (`src/main.py`, lines 92-187),
up to the spreadsheet serialization (whose bytes no claim inspects).  The
input is the per-page lists of grids camelot would return (`none` when
`pdfplumber.open` raises on the persisted bytes).  The two returned `Bool`s
are true iff, respectively, the temporary PDF and the temporary `.xlsx`
file still exist when the handler returns: the PDF is unlinked on the
zero-tables path (line 126) and on the success path (line 176), the `.xlsx`
on the success path (line 177), and the `except` arm (lines 186-187)
deletes nothing.  An exception during the merge loop (empty grid after the
first) happens before the `.xlsx` temporary is created. -/
def convert_run (doc : Option (List (List Grid))) : ConvResp × Bool × Bool :=
  match doc with
  | none => (⟨"error", "open failed", 500, 0⟩, true, false)
  | some pageTables =>
    let grids := pageTables.flatten
    let total_tables := grids.length
    match mergeGrids grids with
    | none => (⟨"error", "single positional indexer is out-of-bounds", 500, 0⟩,
               true, false)
    | some all_dfs =>
      if all_dfs.isEmpty then
        (⟨"error", "No tables found.", 400, 0⟩, false, false)
      else
        (⟨"ok", "", 200, total_tables⟩, false, false)

/-! Spec-side formulations, used to state the claims against the embedded
code: the per-grid first-row policy of the streaming merge, the
filter-by-membership view of the `/extract` loop, and boundedness checks
on a resolved page list. -/

/-- The spec's description of the streaming merge policy for one grid after
the first: drop the first row exactly when it carries a header keyword. -/
def dropHeaderRow (df : Grid) : Grid :=
  if rowHasHeaderKeyword (df.headD []) then df.drop 1 else df

/-- The spec's view of the `/extract` loop: pages in document order,
filtered by membership in the resolved set, one section each. -/
def selectedSections (page_numbers : List Nat) (doc : List (Option String)) :
    List String :=
  ((enumF 1 doc).filter (fun it => page_numbers.contains it.1)).map
    (fun it => pageSection it.1 (it.2.getD ""))

/-- One section per page of the document, in ascending order. -/
def allSections (doc : List (Option String)) : List String :=
  (enumF 1 doc).map (fun it => pageSection it.1 (it.2.getD ""))

/-- Every resolved page number is at most `total_pages`. -/
def allLe (total_pages : Nat) (l : List Nat) : Bool :=
  l.all (fun x => x ≤ total_pages)

/-- Every resolved page number is at least `1`. -/
def allGe1 (l : List Nat) : Bool :=
  l.all (fun x => 1 ≤ x)

/-- The cleaned specifier of a request: `""` when `pages` is absent. -/
def cleanOf : Option String → String
  | none => ""
  | some s => pagesClean s

/-! Helper lemmas. -/

theorem splitOnChar_of_not_mem {sep : Char} {l : List Char} (h : sep ∉ l) :
    splitOnChar sep l = [l] := by
  induction l with
  | nil => rfl
  | cons c rest ih =>
    have hc : ¬c = sep := fun he => h (he ▸ List.mem_cons_self c rest)
    have hr : sep ∉ rest := fun hm => h (List.mem_cons_of_mem c hm)
    simp [splitOnChar, hc, ih hr]

theorem mem_rangeList {a b x : Nat} (h : x ∈ rangeList a b) :
    a ≤ x ∧ x ≤ b := by
  rw [rangeList, List.mem_range'_1] at h
  omega

theorem nodup_rangeList (a b : Nat) : (rangeList a b).Nodup :=
  List.nodup_range' a (b + 1 - a)

theorem contains_rangeList {a b x : Nat} (h1 : a ≤ x) (h2 : x ≤ b) :
    (rangeList a b).contains x = true := by
  have : x ∈ rangeList a b := by
    rw [rangeList, List.mem_range'_1]
    omega
  simpa using this

theorem keepToken_bounds {tp x : Nat} {p : String} (h : keepToken tp p = some x) :
    1 ≤ x ∧ x ≤ tp := by
  simp only [keepToken] at h
  split at h
  · rename_i hc
    cases h
    exact ⟨hc.2.1, hc.2.2⟩
  · cases h

theorem enumF_length (k : Nat) (l : List α) : (enumF k l).length = l.length := by
  induction l generalizing k with
  | nil => rfl
  | cons a rest ih => simp [enumF, ih]

theorem enumF_idx_bounds (k : Nat) (l : List α) :
    ∀ it ∈ enumF k l, k ≤ it.1 ∧ it.1 < k + l.length := by
  induction l generalizing k with
  | nil => intro it h; cases h
  | cons a rest ih =>
    intro it h
    cases h with
    | head =>
      show k ≤ k ∧ k < k + (a :: rest).length
      simp only [List.length_cons]
      omega
    | tail b hm =>
      obtain ⟨h1, h2⟩ := ih (k + 1) it hm
      simp only [List.length_cons]
      omega

theorem filterMap_guard {α β : Type} (q : α → Bool) (f : α → β) (l : List α) :
    l.filterMap (fun a => if q a then some (f a) else none) =
      (l.filter q).map f := by
  induction l with
  | nil => rfl
  | cons a t ih =>
    by_cases hq : q a <;> simp [List.filterMap_cons, List.filter_cons, hq, ih]

theorem joinNl_length : ∀ l : List String, l ≠ [] →
    (joinNl l).length + 1 = (l.map String.length).sum + l.length
  | [], h => absurd rfl h
  | [s], _ => by simp [joinNl]
  | s :: t :: ts, _ => by
    have ih := joinNl_length (t :: ts) (by simp)
    have hj : joinNl (s :: t :: ts) = s ++ "\n" ++ joinNl (t :: ts) := rfl
    have hn : ("\n" : String).length = 1 := by decide
    rw [hj, String.length_append, String.length_append, hn]
    simp only [List.map_cons, List.sum_cons, List.length_cons] at ih ⊢
    omega

theorem foldlM_mergeStep (rest : List Grid) :
    ∀ acc : List Grid, acc ≠ [] → (∀ g ∈ rest, g ≠ []) →
      List.foldlM mergeStep acc rest = some (acc ++ rest.map dropHeaderRow) := by
  induction rest with
  | nil => intro acc _ _; simp
  | cons g t ih =>
    intro acc h1 h2
    have hg : g ≠ [] := h2 g (List.mem_cons_self g t)
    have hstep : mergeStep acc g = some (acc ++ [dropHeaderRow g]) := by
      rcases acc with _ | ⟨a, as⟩
      · exact absurd rfl h1
      · rcases g with _ | ⟨r, rows⟩
        · exact absurd rfl hg
        · cases hk : rowHasHeaderKeyword r <;>
            simp [mergeStep, dropHeaderRow, hk]
    rw [List.foldlM_cons, hstep]
    show List.foldlM mergeStep (acc ++ [dropHeaderRow g]) t = _
    rw [ih (acc ++ [dropHeaderRow g]) (by simp)
      (fun g' hg' => h2 g' (List.mem_cons_of_mem g hg'))]
    simp

theorem allLe_rangeList {a b tp : Nat} (hb : b ≤ tp) :
    allLe tp (rangeList a b) = true := by
  rw [allLe, List.all_eq_true]
  intro x hx
  simpa using le_trans (mem_rangeList hx).2 hb

theorem allGe1_rangeList {a b : Nat} (ha : 1 ≤ a) :
    allGe1 (rangeList a b) = true := by
  rw [allGe1, List.all_eq_true]
  intro x hx
  simpa using le_trans ha (mem_rangeList hx).1

theorem allLe_filterMap (tp : Nat) (ts : List String) :
    allLe tp (ts.filterMap (keepToken tp)) = true := by
  rw [allLe, List.all_eq_true]
  intro x hx
  rw [List.mem_filterMap] at hx
  obtain ⟨p, _, hp⟩ := hx
  simpa using (keepToken_bounds hp).2

theorem allGe1_filterMap (tp : Nat) (ts : List String) :
    allGe1 (ts.filterMap (keepToken tp)) = true := by
  rw [allGe1, List.all_eq_true]
  intro x hx
  rw [List.mem_filterMap] at hx
  obtain ⟨p, _, hp⟩ := hx
  simpa using (keepToken_bounds hp).1

theorem allSections_length (d : List (Option String)) :
    (allSections d).length = d.length := by
  rw [allSections, List.length_map, enumF_length]

theorem selectedSections_all (d : List (Option String)) :
    selectedSections (rangeList 1 d.length) d = allSections d := by
  rw [selectedSections, allSections]
  have hf : (enumF 1 d).filter
      (fun it => (rangeList 1 d.length).contains it.1) = enumF 1 d := by
    rw [List.filter_eq_self]
    intro it hit
    obtain ⟨h1, h2⟩ := enumF_idx_bounds 1 d it hit
    exact contains_rangeList h1 (by omega)
  rw [hf]

/-! Claim theorems. -/

/-- C4: for every `total_pages ≥ 0`, an empty (`""`) or absent (`None`)
specifier resolves to exactly `{1 .. min(6, total_pages)}`. -/
theorem C4_default_first_six (tp : Nat) :
    parse_pages_param none tp = some (List.range' 1 (min 6 tp))
    ∧ parse_pages_param (some "") tp = some (List.range' 1 (min 6 tp)) := by
  constructor <;> simp [parse_pages_param, rangeList]

/-- C1: on a specifier containing `-`, `parse_pages_param` splits it in two,
returns `{start .. min(end, total_pages)}` when both sides parse as
integers (with `start` not clamped to `[1, total_pages]`), raises when a
side does not parse, and in particular resolves `"1-4"` against 3 pages to
`{1, 2, 3}`. -/
theorem C1_range_branch (s : String) (tp : Nat) (a b : String)
    (hne : s ≠ "") (hall : pagesClean s ≠ "all")
    (hdash : pyContainsChar '-' (pagesClean s) = true)
    (hsplit : pySplit '-' (pagesClean s) = [a, b]) :
    (∀ sa sb, pyInt? a = some sa → pyInt? b = some sb →
        parse_pages_param (some s) tp = some (rangeList sa (min sb tp)))
    ∧ ((pyInt? a = none ∨ pyInt? b = none) →
        parse_pages_param (some s) tp = none)
    ∧ parse_pages_param (some "1-4") 3 = some [1, 2, 3] := by
  have hbody : parse_pages_param (some s) tp =
      (match (pySplit '-' (pagesClean s)).map pyInt? with
        | [some a, some b] => some (rangeList a (min b tp))
        | _ => none) := by
    simp only [parse_pages_param]
    rw [if_neg hne, if_neg hall, if_pos hdash]
  refine ⟨?_, ?_, by decide⟩
  · intro sa sb ha hb
    rw [hbody, hsplit]
    simp [ha, hb]
  · intro hfail
    rw [hbody, hsplit]
    rcases hfail with ha | hb
    · simp [ha]
    · rcases hA : pyInt? a with _ | sa <;> simp [hA, hb]

/-- C1 witness: `"2-9"` against 4 pages resolves through the range branch
to `{2 .. min(9, 4)}`. -/
theorem C1_witness :
    parse_pages_param (some "2-9") 4 = some (rangeList 2 (min 9 4)) :=
  (C1_range_branch "2-9" 4 "2" "9" (by decide) (by decide) (by decide)
    (by decide)).1 2 9 (by decide) (by decide)

/-- C5: a nonempty specifier that is not `"all"`, contains no `-` and is
not purely numeric is treated as a comma-separated list: split on commas,
each token trimmed and kept iff it is a digit string whose value lies in
`[1, total_pages]` (`keepToken`); dropped tokens raise no error, and
`"2,5,9"` against 6 pages resolves to `{2, 5}`. -/
theorem C5_comma_branch (s : String) (tp : Nat)
    (hne : s ≠ "") (hall : pagesClean s ≠ "all")
    (hdash : pyContainsChar '-' (pagesClean s) = false)
    (hdig : pyIsDigit (pagesClean s) = false) :
    parse_pages_param (some s) tp =
      some ((pySplit ',' (pagesClean s)).filterMap (keepToken tp))
    ∧ parse_pages_param (some "2,5,9") 6 = some [2, 5] := by
  refine ⟨?_, by decide⟩
  simp only [parse_pages_param]
  rw [if_neg hne, if_neg hall, hdash, hdig]
  simp

/-- C5 witness: `"2,5,9"` against 6 pages goes through the comma branch. -/
theorem C5_witness :
    parse_pages_param (some "2,5,9") 6 =
      some ((pySplit ',' (pagesClean "2,5,9")).filterMap (keepToken 6))
    ∧ parse_pages_param (some "2,5,9") 6 = some [2, 5] :=
  C5_comma_branch "2,5,9" 6 (by decide) (by decide) (by decide) (by decide)

/-- C10: the first grid of the streaming merge is appended verbatim —
merging a single grid yields exactly that grid (hence exactly its rows),
with no header-keyword first-row drop even if its first row carries header
keywords. -/
theorem C10_first_grid_verbatim (g : Grid) :
    mergeGrids [g] = some [g] ∧ combinedRows [g] = some g := by
  have h1 : mergeGrids [g] = some [g] := by
    show (List.foldlM mergeStep [] [g]) = some [g]
    rw [List.foldlM_cons]
    show (mergeStep [] g) >>= (fun acc => List.foldlM mergeStep acc []) = _
    simp [mergeStep]
  refine ⟨h1, ?_⟩
  unfold combinedRows
  rw [h1]
  simp

/-- C2: in the streaming merge, every grid after the first appended one has
its first row dropped exactly when some cell of that row contains a header
keyword, and is appended unmodified otherwise (`dropHeaderRow`); the first
grid is kept whole. -/
theorem C2_streaming_header_drop (g0 : Grid) (rest : List Grid)
    (h : ∀ g ∈ rest, g ≠ []) :
    mergeGrids (g0 :: rest) = some (g0 :: rest.map dropHeaderRow) := by
  show (List.foldlM mergeStep [] (g0 :: rest)) = _
  rw [List.foldlM_cons]
  have h0 : mergeStep [] g0 = some [g0] := by simp [mergeStep]
  rw [h0]
  show List.foldlM mergeStep [g0] rest = _
  rw [foldlM_mergeStep rest [g0] (by simp) h]
  simp

/-- C2 witness: one keyword-headed grid and one plain grid after the first
grid — the keyword-headed first row is dropped, the plain grid is kept. -/
theorem C2_witness :
    mergeGrids [[["a"]], [["КНП", "x"], ["1", "2"]], [["p", "q"]]] =
      some [[["a"]], [["1", "2"]], [["p", "q"]]] :=
  (C2_streaming_header_drop [["a"]] [[["КНП", "x"], ["1", "2"]], [["p", "q"]]]
    (by decide)).trans (by decide)

/-- C9: when no page contributes any table, `/convert-to-excel` answers
with status `"error"`, message `"No tables found."` and HTTP status 400 —
never an empty `"ok"`. -/
theorem C9_zero_tables_error (pageTables : List (List Grid))
    (h : ∀ p ∈ pageTables, p = []) :
    (convert_run (some pageTables)).1 = ⟨"error", "No tables found.", 400, 0⟩
    ∧ (convert_run (some pageTables)).1.status ≠ "ok" := by
  have hflat : pageTables.flatten = [] := by
    rw [List.flatten_eq_nil_iff]
    exact h
  have : convert_run (some pageTables) =
      (⟨"error", "No tables found.", 400, 0⟩, false, false) := by
    simp only [convert_run]
    rw [hflat]
    rfl
  rw [this]
  exact ⟨rfl, by decide⟩

/-- C9 witness: a two-page document with no tables on either page. -/
theorem C9_witness :
    (convert_run (some [[], []])).1 = ⟨"error", "No tables found.", 400, 0⟩ :=
  (C9_zero_tables_error [[], []] (by decide)).1

/-- C8: the cleanup guarantee fails on exception paths.  When
`pdfplumber.open` raises on the persisted upload, `/extract` returns the
error response with the temporary PDF still on disk; the same holds for
`/extract` when the page specifier makes `int()` raise, and for
`/convert-to-excel` when a continuation grid is empty so that
`df.iloc[0]` raises after the temporary PDF was written. -/
theorem C8_cleanup_leak :
    ((extract_run none none).1.status = "error"
      ∧ (extract_run none none).2 = true)
    ∧ ((extract_run (some [some "t"]) (some "a-b")).1.status = "error"
      ∧ (extract_run (some [some "t"]) (some "a-b")).2 = true)
    ∧ ((convert_run (some [[[["a"]], []]])).1.status = "error"
      ∧ (convert_run (some [[[["a"]], []]])).2.1 = true) := by
  refine ⟨⟨rfl, rfl⟩, ⟨?_, ?_⟩, ⟨?_, ?_⟩⟩ <;> decide

/-- C3 counterexample: the resolved page list is not always a
duplicate-free subset of `[1, total_pages]` — `"0-2"` against 3 pages
yields `[0, 1, 2]` containing `0`, and `"2,2"` against 6 pages yields the
duplicate `[2, 2]`. -/
theorem C3_counterexample :
    parse_pages_param (some "0-2") 3 = some [0, 1, 2]
    ∧ allGe1 [0, 1, 2] = false
    ∧ parse_pages_param (some "2,2") 6 = some [2, 2]
    ∧ ¬ ([2, 2] : List Nat).Nodup := by
  exact ⟨by decide, by decide, by decide, by decide⟩

/-- C3 amended: every resolved page number is at most `total_pages`; if the
cleaned specifier has no `-` every resolved page number is also at least 1,
and if it has no `,` the resolved list has no duplicates. -/
theorem C3_amended_bounds (s : Option String) (tp : Nat) (l : List Nat)
    (h : parse_pages_param s tp = some l) :
    allLe tp l = true
    ∧ (pyContainsChar '-' (cleanOf s) = false → allGe1 l = true)
    ∧ (pyContainsChar ',' (cleanOf s) = false → l.Nodup) := by
  rcases s with _ | str
  · simp only [parse_pages_param, Option.some.injEq] at h
    subst h
    exact ⟨allLe_rangeList (Nat.min_le_right 6 tp),
      fun _ => allGe1_rangeList (Nat.le_refl 1),
      fun _ => nodup_rangeList 1 (min 6 tp)⟩
  · by_cases h0 : str = ""
    · subst h0
      have he : parse_pages_param (some "") tp =
          some (rangeList 1 (min 6 tp)) := rfl
      rw [he, Option.some.injEq] at h
      subst h
      exact ⟨allLe_rangeList (Nat.min_le_right 6 tp),
        fun _ => allGe1_rangeList (Nat.le_refl 1),
        fun _ => nodup_rangeList 1 (min 6 tp)⟩
    · simp only [parse_pages_param, if_neg h0] at h
      have hclean : cleanOf (some str) = pagesClean str := rfl
      by_cases h1 : pagesClean str = "all"
      · rw [if_pos h1, Option.some.injEq] at h
        subst h
        exact ⟨allLe_rangeList (Nat.le_refl tp),
          fun _ => allGe1_rangeList (Nat.le_refl 1),
          fun _ => nodup_rangeList 1 tp⟩
      · rw [if_neg h1] at h
        cases h2 : pyContainsChar '-' (pagesClean str) with
        | true =>
          simp only [h2, if_true] at h
          have hb : pyContainsChar '-' (cleanOf (some str)) = false → allGe1 l = true := by
            rw [hclean, h2]
            intro hfalse
            cases hfalse
          split at h
          · rw [Option.some.injEq] at h
            subst h
            exact ⟨allLe_rangeList (Nat.min_le_right _ tp), hb,
              fun _ => nodup_rangeList _ _⟩
          · cases h
        | false =>
          simp only [h2, Bool.false_eq_true, if_false] at h
          cases h3 : pyIsDigit (pagesClean str) with
          | true =>
            simp only [h3, if_true, Option.some.injEq] at h
            subst h
            exact ⟨allLe_rangeList (Nat.min_le_right _ tp),
              fun _ => allGe1_rangeList (Nat.le_refl 1),
              fun _ => nodup_rangeList _ _⟩
          | false =>
            simp only [h3, Bool.false_eq_true, if_false,
              Option.some.injEq] at h
            subst h
            refine ⟨allLe_filterMap tp _, fun _ => allGe1_filterMap tp _, ?_⟩
            intro hc
            rw [hclean] at hc
            have hnm : ',' ∉ (pagesClean str).data := by
              simpa [pyContainsChar] using hc
            rw [pySplit, splitOnChar_of_not_mem hnm]
            rcases hk : keepToken tp ⟨(pagesClean str).data⟩ with _ | v <;>
              simp [List.filterMap_cons, hk]

/-- C3 amended witness: `"3"` against 10 pages resolves to `[1, 2, 3]`,
which is bounded by 10, bounded below by 1, and duplicate-free. -/
theorem C3_amended_witness :
    allLe 10 [1, 2, 3] = true ∧ allGe1 [1, 2, 3] = true
    ∧ ([1, 2, 3] : List Nat).Nodup := by
  have h := C3_amended_bounds (some "3") 10 [1, 2, 3] (by decide)
  exact ⟨h.1, h.2.1 (by decide), h.2.2 (by decide)⟩

/-- C6 counterexample: the delimited section the code appends is
`"\n=== Страница N ===\n<text>"` (leading newline, Russian label), not the
claimed `"=== Page N ===\n<text>"`. -/
theorem C6_counterexample :
    extractSections [some "hi"] none = some ["\n=== Страница 1 ===\nhi"]
    ∧ "\n=== Страница 1 ===\nhi" ≠ "=== Page 1 ===\nhi" :=
  ⟨by decide, by decide⟩

/-- C6 amended: for each page of the document in ascending order whose
number is in the resolved set, exactly one section
`"\n=== Страница N ===\n<text>"` is appended (empty text when the page
yields none); `pages_processed` is the number of sections; with specifier
`"all"` there is one section per page and `pages_processed = total_pages`. -/
theorem C6_sections (d : List (Option String)) (p : Option String)
    (pnums : List Nat) (h : parse_pages_param p d.length = some pnums) :
    extractSections d p = some (selectedSections pnums d)
    ∧ (extract_run (some d) p).1.pages_processed =
        (selectedSections pnums d).length
    ∧ (p = some "all" →
        extractSections d p = some (allSections d)
        ∧ (extract_run (some d) p).1.pages_processed = d.length) := by
  have h1 : extractSections d p = some (selectedSections pnums d) := by
    rw [extractSections, h, Option.map_some', selectedSections,
      filterMap_guard (fun it : Nat × Option String => pnums.contains it.1)
        (fun it => pageSection it.1 (it.2.getD "")) (enumF 1 d)]
  have h2 : (extract_run (some d) p).1.pages_processed =
      (selectedSections pnums d).length := by
    simp only [extract_run, h1]
  refine ⟨h1, h2, fun hp => ?_⟩
  subst hp
  have hpn : pnums = rangeList 1 d.length := by
    have he : parse_pages_param (some "all") d.length =
        some (rangeList 1 d.length) := rfl
    rw [he, Option.some.injEq] at h
    exact h.symm
  subst hpn
  exact ⟨by rw [h1, selectedSections_all],
    by rw [h2, selectedSections_all, allSections_length]⟩

/-- C6 witness: a three-page document with `pages="all"` yields one section
per page and `pages_processed = 3`. -/
theorem C6_witness :
    extractSections [some "hi", Option.none, some "z"] (some "all") =
      some (allSections [some "hi", Option.none, some "z"])
    ∧ (extract_run (some [some "hi", Option.none, some "z"])
        (some "all")).1.pages_processed = 3 := by
  have h := (C6_sections [some "hi", Option.none, some "z"] (some "all")
    (rangeList 1 3) (by decide)).2.2 rfl
  exact ⟨h.1, h.2.trans rfl⟩

/-- C7 counterexample: `text_length` is not derivable from the `text` field
alone — two documents produce identical `text` with different
`text_length` (the separator `"\n"` inserted by `"\n".join` is counted in
`text` but not in `text_length`). -/
theorem C7_counterexample :
    (extract_run (some [some "\n\n=== Страница 2 ===\nx"]) none).1.text =
      (extract_run (some [some "", some "x"]) none).1.text
    ∧ (extract_run (some [some "\n\n=== Страница 2 ===\nx"]) none).1.text_length ≠
        (extract_run (some [some "", some "x"]) none).1.text_length
    ∧ (extract_run (some [some "\n\n=== Страница 2 ===\nx"]) none).1.status = "ok"
    ∧ (extract_run (some [some "", some "x"]) none).1.status = "ok" :=
  ⟨by decide, by decide, by decide, by decide⟩

/-- C7 amended: on every successful `/extract` response, `text_length` is
consistent with the returned content and recomputable from the `text` and
`pages_processed` fields jointly: it equals
`text.length + 1 - pages_processed` when at least one section was
produced, and `0` (with empty text) when none was. -/
theorem C7_text_length_consistent (d : List (Option String))
    (p : Option String)
    (h : (extract_run (some d) p).1.status = "ok") :
    (1 ≤ (extract_run (some d) p).1.pages_processed →
      (extract_run (some d) p).1.text_length =
        (extract_run (some d) p).1.text.length + 1
          - (extract_run (some d) p).1.pages_processed)
    ∧ ((extract_run (some d) p).1.pages_processed = 0 →
        (extract_run (some d) p).1.text_length = 0
        ∧ (extract_run (some d) p).1.text = "") := by
  rcases he : extractSections d p with _ | secs
  · exfalso
    simp only [extract_run, he] at h
    exact absurd h (by decide)
  · have hr : extract_run (some d) p =
        (⟨"ok", d.length, secs.length, (secs.map String.length).sum,
          joinNl secs⟩, false) := by
      simp only [extract_run, he]
    rw [hr]
    dsimp only
    constructor
    · intro hpp
      have hne : secs ≠ [] := by
        intro h2
        subst h2
        simp at hpp
      have := joinNl_length secs hne
      omega
    · intro hpp
      have h2 : secs = [] := List.length_eq_zero.mp hpp
      subst h2
      exact ⟨rfl, rfl⟩

/-- C7 witness: a one-page document, default specifier. -/
theorem C7_witness :
    (extract_run (some [some "ab"]) none).1.text_length =
      (extract_run (some [some "ab"]) none).1.text.length + 1
        - (extract_run (some [some "ab"]) none).1.pages_processed :=
  (C7_text_length_consistent [some "ab"] none (by decide)).1 (by decide)

end PdfReader
